import Mathlib

set_option linter.unnecessarySeqFocus false
set_option linter.unreachableTactic false
set_option linter.unusedTactic false

/-!
Verification of the jinjacraft template analyzer and model generator
(`jinjacraft/model_generator.py`, `jinjacraft/validator.py`).

The Python program walks a Jinja2 template syntax tree and infers the shape
of the data document the template expects.  We embed the relevant fragment of
the Jinja2 AST as an inductive type, the Python value universe (strings,
booleans, ordered dicts, lists) as `Value`, and translate each Python
function into a Lean function over these types.  Ordered dicts are modelled
as association lists with Python's dict update semantics (updating an
existing key keeps its position, new keys are appended).
-/

set_option maxHeartbeats 1000000

/-- Python value universe for the analyzer's model structures: strings,
booleans, (ordered) dicts and lists.  Condition markers are ordinary dicts
`{"__condition__": True, "value": "<x>"}`, exactly as in the source. -/
inductive Value where
  | str (s : String)
  | boolV (b : Bool)
  | obj (entries : List (String × Value))
  | listV (items : List Value)
deriving Repr

/-- Lookup in an ordered dict (Python `d[k]` / `k in d`). -/
def dictGet {α : Type} (d : List (String × α)) (k : String) : Option α :=
  (d.find? (fun p => p.1 == k)).map (fun p => p.2)

/-- Update/insert in an ordered dict (Python `d[k] = v`): an existing key
keeps its position, a new key is appended at the end. -/
def dictSet {α : Type} (d : List (String × α)) (k : String) (v : α) :
    List (String × α) :=
  if d.any (fun p => p.1 == k) then
    d.map (fun p => if p.1 == k then (k, v) else p)
  else
    d ++ [(k, v)]

/-- Python `sep.join(parts)` (kernel-computable join). -/
def strJoinSep (sep : String) : List String → String
  | [] => ""
  | [x] => x
  | x :: rest => x ++ sep ++ strJoinSep sep rest

/-- Concatenation of a list of strings (kernel-computable `"".join`). -/
def strConcat : List String → String
  | [] => ""
  | x :: rest => x ++ strConcat rest

/-- Python `text.split(c)` on a single-character separator, over the
character list. -/
def splitOnChar (c : Char) : List Char → List (List Char)
  | [] => [[]]
  | x :: rest =>
    if x = c then [] :: splitOnChar c rest
    else
      match splitOnChar c rest with
      | [] => [[x]]
      | g :: gs => (x :: g) :: gs

/-- Python `str.strip()`: drop leading and trailing whitespace. -/
def pyStrip (s : String) : String :=
  ((s.toList.dropWhile Char.isWhitespace).reverse.dropWhile Char.isWhitespace).reverse.asString

/-- Python `s.startswith(c)` for a single character. -/
def firstCharIs (s : String) (c : Char) : Bool :=
  match s.toList with
  | [] => false
  | x :: _ => x = c

/-- Python `s.endswith(c)` for a single character. -/
def lastCharIs (s : String) (c : Char) : Bool :=
  match s.toList.getLast? with
  | none => false
  | some x => x = c

/-- Source `_merge_nested_dict(base, update)`: iterate over `update`; when
both the existing entry and the incoming value are dicts, merge recursively,
otherwise the incoming value overwrites. -/
def merge_nested_dict (base : List (String × Value)) :
    List (String × Value) → List (String × Value)
  | [] => base
  | (k, Value.obj u) :: rest =>
    (match dictGet base k with
     | some (Value.obj b) =>
       merge_nested_dict (dictSet base k (Value.obj (merge_nested_dict b u))) rest
     | _ => merge_nested_dict (dictSet base k (Value.obj u)) rest)
  | (k, v) :: rest => merge_nested_dict (dictSet base k v) rest
termination_by l => sizeOf l
decreasing_by all_goals simp_wf <;> omega

/-- Source `_build_nested_structure(path, is_list)`: right-nested single-key
dict from a path; the innermost key holds the `<name>` placeholder (or an
empty/one-element list when `is_list`). -/
def build_nested_structure : List String → Bool → List (String × Value)
  | [], _ => []
  | [k], is_list =>
    if is_list then [(k, Value.listV [])]
    else [(k, Value.str ("<" ++ k ++ ">"))]
  | k :: rest, is_list =>
    let nested := Value.obj (build_nested_structure rest false)
    if is_list then [(k, Value.listV [nested])] else [(k, nested)]

/-- Embedded fragment of the Jinja2 syntax tree (`jinja2.nodes`).  Each
constructor lists exactly the child fields the analyzer can reach: `For` has
`target`, `iter`, `body`, `else_` and the loop-filter `test`; `If` has
`test`, `body`, `elif_`, `else_`; `Output` its expression children; `Getitem`
carries its subscript argument (which the analyzer never traverses, since
`arg` is not among its generic child fields); `And`/`Or` have `left`/`right`,
`Not` has `node`, `Compare` has `expr` plus operands (field `ops`, which no
traversal visits).  `constN` stands for leaf nodes without name content
(`Const`, `TemplateData`). -/
inductive Node where
  | name (n : String)
  | getattr (base : Node) (attr : String)
  | getitem (base : Node) (arg : Node)
  | forN (target : Node) (iter : Node) (body : List Node)
      (elseB : List Node) (test : Option Node)
  | ifN (test : Node) (body : List Node) (elifB : List Node) (elseB : List Node)
  | output (nodes : List Node)
  | andN (left : Node) (right : Node)
  | orN (left : Node) (right : Node)
  | notN (node : Node)
  | compare (expr : Node) (ops : List (String × Node))
  | constN
deriving Repr

/-- Source `TemplateAnalyzer._get_attribute_path`: the chain of names of a
`Name`/`Getattr` spine; `Getitem` is transparent; anything else is `[]`. -/
def get_attribute_path : Node → List String
  | Node.name n => [n]
  | Node.getattr base attr => get_attribute_path base ++ [attr]
  | Node.getitem base _ => get_attribute_path base
  | _ => []

/-- Analyzer state: the model under construction (`self.variables`), the
write-only set of loop-discovered names (`self.loop_variables`) and the
condition path registry (`self.condition_paths`). -/
structure AnalyzerState where
  vars : List (String × Value)
  loop_variables : List String
  condition_paths : List (List String)
deriving Repr

/-- Fresh analyzer state (`TemplateAnalyzer.__init__`). -/
def initState : AnalyzerState := ⟨[], [], []⟩

/-- Insert into a modelled Python set (no-op when already present). -/
def setAdd {α : Type} [BEq α] (s : List α) (x : α) : List α :=
  if s.contains x then s else s ++ [x]

/-- Source `TemplateAnalyzer._mark_condition_variable`: register the path of
a `Name`/`Getattr` test leaf (unless its head is shadowed), then recurse into
the child fields `node`, `expr`, `left`, `right`. -/
def mark_condition_variable :
    Node → List String → List (List String) → List (List String)
  | Node.name n, loop_vars, cps =>
    if loop_vars.contains n then cps else setAdd cps [n]
  | Node.getattr base attr, loop_vars, cps =>
    let cps :=
      match get_attribute_path (Node.getattr base attr) with
      | [] => cps
      | h :: t => if loop_vars.contains h then cps else setAdd cps (h :: t)
    mark_condition_variable base loop_vars cps
  | Node.getitem base _, loop_vars, cps =>
    mark_condition_variable base loop_vars cps
  | Node.andN l r, loop_vars, cps =>
    mark_condition_variable r loop_vars (mark_condition_variable l loop_vars cps)
  | Node.orN l r, loop_vars, cps =>
    mark_condition_variable r loop_vars (mark_condition_variable l loop_vars cps)
  | Node.notN e, loop_vars, cps => mark_condition_variable e loop_vars cps
  | Node.compare e _, loop_vars, cps => mark_condition_variable e loop_vars cps
  | _, _, cps => cps

/-- Source `TemplateAnalyzer._mark_loop_condition_variable`: register
`(iterable, "__item__", attr)` for a `Getattr` whose base is the loop target,
then recurse into the child fields `node`, `expr`, `left`, `right`. -/
def mark_loop_condition_variable :
    Node → List String → Option String → List (List String) → List (List String)
  | Node.getattr base attr, iter_path, loop_var, cps =>
    let cps :=
      match base with
      | Node.name m =>
        if some m = loop_var then
          match iter_path with
          | [] => cps
          | h :: _ => setAdd cps [h, "__item__", attr]
        else cps
      | _ => cps
    mark_loop_condition_variable base iter_path loop_var cps
  | Node.getitem base _, ip, lv, cps => mark_loop_condition_variable base ip lv cps
  | Node.andN l r, ip, lv, cps =>
    mark_loop_condition_variable r ip lv (mark_loop_condition_variable l ip lv cps)
  | Node.orN l r, ip, lv, cps =>
    mark_loop_condition_variable r ip lv (mark_loop_condition_variable l ip lv cps)
  | Node.notN e, ip, lv, cps => mark_loop_condition_variable e ip lv cps
  | Node.compare e _, ip, lv, cps => mark_loop_condition_variable e ip lv cps
  | _, _, _, cps => cps

/-- Condition-marker dict `{"__condition__": True, "value": s}` as built by
the source at both insertion sites. -/
def mkCondition (s : String) : Value :=
  Value.obj [("__condition__", Value.boolV true), ("value", Value.str s)]

/-- Source `TemplateAnalyzer._add_loop_item_attribute(list_name, attr)`:
force `variables[list_name]` to a non-empty list, then set `attr` inside the
first (template) item, condition-tagged iff `(list_name, "__item__", attr)`
is already registered. -/
def add_loop_item_attribute (list_name attr : String) (st : AnalyzerState) :
    AnalyzerState :=
  let vars :=
    match dictGet st.vars list_name with
    | none => dictSet st.vars list_name (Value.listV [Value.obj []])
    | some (Value.listV []) =>
      dictSet st.vars list_name (Value.listV [Value.obj []])
    | some (Value.listV (_ :: _)) => st.vars
    | some _ => dictSet st.vars list_name (Value.listV [Value.obj []])
  let is_condition := st.condition_paths.contains [list_name, "__item__", attr]
  let vars :=
    match dictGet vars list_name with
    | some (Value.listV (Value.obj entries :: rest)) =>
      let newVal :=
        if is_condition then mkCondition ("<" ++ attr ++ ">")
        else Value.str ("<" ++ attr ++ ">")
      dictSet vars list_name (Value.listV (Value.obj (dictSet entries attr newVal) :: rest))
    | _ => vars
  { st with vars := vars }

/-- Ordinary handling of a `Name` node (`_analyze_node`'s `Name` arm). -/
def analyzeNameOrdinary (n : String) (loop_vars : List String) (st : AnalyzerState) : AnalyzerState :=
  if loop_vars.contains n then st
  else { st with vars := merge_nested_dict st.vars [(n, Value.str ("<" ++ n ++ ">"))] }

/-- Ordinary handling of a `Getattr` node (`_analyze_node`'s `Getattr` arm). -/
def analyzeGetattrOrdinary (node : Node) (loop_vars : List String) (st : AnalyzerState) : AnalyzerState :=
  match get_attribute_path node with
  | [] => st
  | h :: t =>
    if loop_vars.contains h then st
    else { st with vars := merge_nested_dict st.vars (build_nested_structure (h :: t) false) }

/-- Bookkeeping prelude of `_analyze_node`'s `For` arm: the loop target
name, the iterable path, and the `loop_variables` update. -/
def forPrelude (target iter : Node) (loop_vars : List String) (st : AnalyzerState) :
    Option String × List String × List String × AnalyzerState :=
  let loop_var : Option String :=
    match target with
    | Node.name n => some n
    | _ => none
  let iter_path := get_attribute_path iter
  let st :=
    match iter_path with
    | [] => st
    | h :: _ =>
      if loop_vars.contains h then st
      else { st with loop_variables := setAdd st.loop_variables h }
  let new_loop_vars :=
    match loop_var with
    | some v => if v = "" then loop_vars else setAdd loop_vars v
    | none => loop_vars
  (loop_var, iter_path, new_loop_vars, st)

mutual

/-- Source `TemplateAnalyzer._analyze_node`, translated arm by arm: the
`if/elif` chain followed by its trailing generic recursion into the child
fields `node`, `expr`, `test`, `left`, `right`, `args`, `kwargs` (`Getattr`
returns early and skips the generic part; for `If` the generic part visits
`test` a second time; for `For` it visits the loop-filter `test`). -/
def analyzeNode : Node → List String → AnalyzerState → AnalyzerState
  | Node.forN target iter body elseB test, loop_vars, st =>
    let p := forPrelude target iter loop_vars st
    let st := analyzeForBodyList body p.2.1 p.1 p.2.2.1 p.2.2.2
    let st := analyzeNodeList elseB loop_vars st
    (match test with
     | some t => analyzeNode t loop_vars st
     | none => st)
  | Node.getattr base attr, loop_vars, st =>
    analyzeGetattrOrdinary (Node.getattr base attr) loop_vars st
  | Node.name n, loop_vars, st => analyzeNameOrdinary n loop_vars st
  | Node.output ns, loop_vars, st => analyzeNodeList ns loop_vars st
  | Node.ifN test body elifB elseB, loop_vars, st =>
    let st := { st with condition_paths := mark_condition_variable test loop_vars st.condition_paths }
    let st := analyzeNode test loop_vars st
    let st := analyzeNodeList body loop_vars st
    let st := analyzeNodeList elifB loop_vars st
    let st := analyzeNodeList elseB loop_vars st
    analyzeNode test loop_vars st
  | Node.getitem base _, loop_vars, st => analyzeNode base loop_vars st
  | Node.andN l r, loop_vars, st => analyzeNode r loop_vars (analyzeNode l loop_vars st)
  | Node.orN l r, loop_vars, st => analyzeNode r loop_vars (analyzeNode l loop_vars st)
  | Node.notN e, loop_vars, st => analyzeNode e loop_vars st
  | Node.compare e _, loop_vars, st => analyzeNode e loop_vars st
  | Node.constN, _, st => st
termination_by n _ _ => sizeOf n
decreasing_by all_goals simp_wf <;> omega

/-- Iteration of `_analyze_node` over a node list (the source's `for child
in ...` loops). -/
def analyzeNodeList : List Node → List String → AnalyzerState → AnalyzerState
  | [], _, st => st
  | n :: rest, loop_vars, st => analyzeNodeList rest loop_vars (analyzeNode n loop_vars st)
termination_by ns _ _ => sizeOf ns
decreasing_by all_goals simp_wf <;> omega

/-- Source `TemplateAnalyzer._analyze_for_body`: the loop-body walker with
the iterable path and loop target in scope.  Its `If` arm skips `elif_`,
exactly as the source does; the arms that fall back to `_analyze_node` on
the same node (`For` and the final `else`) have that call inlined
constructor by constructor. -/
def analyzeForBody : Node → List String → Option String → List String → AnalyzerState → AnalyzerState
  | Node.getattr base attr, iter_path, loop_var, loop_vars, st =>
    (match base with
     | Node.name m =>
       if some m = loop_var then
         match iter_path with
         | [] => st
         | h :: _ => add_loop_item_attribute h attr st
       else analyzeGetattrOrdinary (Node.getattr (Node.name m) attr) loop_vars st
     | _ => analyzeGetattrOrdinary (Node.getattr base attr) loop_vars st)
  | Node.output ns, iter_path, loop_var, loop_vars, st =>
    analyzeForBodyList ns iter_path loop_var loop_vars st
  | Node.forN target iter body elseB test, _, _, loop_vars, st =>
    let p := forPrelude target iter loop_vars st
    let st := analyzeForBodyList body p.2.1 p.1 p.2.2.1 p.2.2.2
    let st := analyzeNodeList elseB loop_vars st
    (match test with
     | some t => analyzeNode t loop_vars st
     | none => st)
  | Node.ifN test body _elifB elseB, iter_path, loop_var, loop_vars, st =>
    let st := { st with condition_paths := mark_loop_condition_variable test iter_path loop_var st.condition_paths }
    let st := analyzeForBody test iter_path loop_var loop_vars st
    let st := analyzeForBodyList body iter_path loop_var loop_vars st
    analyzeForBodyList elseB iter_path loop_var loop_vars st
  | Node.name n, _, _, loop_vars, st => analyzeNameOrdinary n loop_vars st
  | Node.getitem base _, _, _, loop_vars, st => analyzeNode base loop_vars st
  | Node.andN l r, _, _, loop_vars, st => analyzeNode r loop_vars (analyzeNode l loop_vars st)
  | Node.orN l r, _, _, loop_vars, st => analyzeNode r loop_vars (analyzeNode l loop_vars st)
  | Node.notN e, _, _, loop_vars, st => analyzeNode e loop_vars st
  | Node.compare e _, _, _, loop_vars, st => analyzeNode e loop_vars st
  | Node.constN, _, _, _, st => st
termination_by n _ _ _ _ => sizeOf n
decreasing_by all_goals simp_wf <;> omega

/-- Iteration of `_analyze_for_body` over a node list. -/
def analyzeForBodyList : List Node → List String → Option String → List String → AnalyzerState → AnalyzerState
  | [], _, _, _, st => st
  | n :: rest, ip, lv, lvs, st =>
    analyzeForBodyList rest ip lv lvs (analyzeForBody n ip lv lvs st)
termination_by ns _ _ _ _ => sizeOf ns
decreasing_by all_goals simp_wf <;> omega

end



/-- Source `TemplateAnalyzer._apply_condition_markers(data, current_path)`:
top-down sweep over the finished model; a string leaf whose path is in the
registry is wrapped into a condition marker; dicts without a marker are
recursed into; lists are left alone. -/
def apply_condition_markers (cps : List (List String)) :
    List (String × Value) → List String → List (String × Value)
  | [], _ => []
  | (k, v) :: rest, current_path =>
    let path := current_path ++ [k]
    let v2 :=
      match v with
      | Value.str s => if cps.contains path then mkCondition s else Value.str s
      | Value.obj entries =>
        if (dictGet entries "__condition__").isSome then Value.obj entries
        else Value.obj (apply_condition_markers cps entries path)
      | other => other
    (k, v2) :: apply_condition_markers cps rest current_path
termination_by l _ => sizeOf l
decreasing_by all_goals simp_wf <;> omega

/-- Model produced by a successful `TemplateAnalyzer.analyze` run on a
parsed template body. -/
def analyzeResult (body : List Node) : List (String × Value) :=
  let st := analyzeNodeList body [] initState
  apply_condition_markers st.condition_paths st.vars []

/-- Source `TemplateAnalyzer.analyze`: parsing is the external engine, so
the input is the parse result; a parse failure is wrapped into the
`ModelGenerationError` message, otherwise each top-level node is walked and
the condition markers applied. -/
def analyze (parsed : Except String (List Node)) :
    Except String (List (String × Value)) :=
  match parsed with
  | Except.error err => Except.error ("Invalid template syntax: " ++ err)
  | Except.ok body => Except.ok (analyzeResult body)

mutual

/-- Modelled from the spec: "expression output" is a `{{ ... }}` print
site, i.e. an `Output` child that is not literal template data or a
constant.  `listHasExprOutput body` decides whether a template has any
expression output.  This is a spec-side notion used to state claims about
"templates with no expression output". -/
def nodeHasExprOutput : Node → Bool
  | Node.output ns => outputChildrenHaveExpr ns
  | Node.forN _ _ body elseB _ => listHasExprOutput body || listHasExprOutput elseB
  | Node.ifN _ body elifB elseB =>
    listHasExprOutput body || listHasExprOutput elifB || listHasExprOutput elseB
  | _ => false
termination_by n => sizeOf n

def listHasExprOutput : List Node → Bool
  | [] => false
  | n :: rest => nodeHasExprOutput n || listHasExprOutput rest
termination_by ns => sizeOf ns

def outputChildrenHaveExpr : List Node → Bool
  | [] => false
  | Node.constN :: rest => outputChildrenHaveExpr rest
  | _ :: _ => true
termination_by ns => sizeOf ns

end

/-- Modelled from the spec: the paths "observed as the direct test
expression of an `if`, or as a boolean operand (`and`/`or`/`not`) therein",
where a leaf path is the top-level name alone or, for a loop-item attribute
reference `target.attr` under `for target in listName`, the triple
`(listName, "__item__", attr)`. -/
def specTestPaths (ctx : Option (String × String)) : Node → List (List String)
  | Node.name n =>
    (match ctx with
     | some (_, lv) => if n = lv then [] else [[n]]
     | none => [[n]])
  | Node.getattr base a =>
    (match ctx, base with
     | some (listName, lv), Node.name m =>
       if m = lv then [[listName, "__item__", a]]
       else [get_attribute_path (Node.getattr base a)]
     | _, _ => [get_attribute_path (Node.getattr base a)])
  | Node.andN l r => specTestPaths ctx l ++ specTestPaths ctx r
  | Node.orN l r => specTestPaths ctx l ++ specTestPaths ctx r
  | Node.notN e => specTestPaths ctx e
  | Node.getitem _ _ => []
  | Node.forN _ _ _ _ _ => []
  | Node.ifN _ _ _ _ => []
  | Node.output _ => []
  | Node.compare _ _ => []
  | Node.constN => []

/-- Loop context for the spec-side observation collector: a `for` over an
unshadowed named iterable with a named target switches the context. -/
def specForCtx (ctx : Option (String × String)) (target iter : Node) :
    Option (String × String) :=
  match get_attribute_path iter, target with
  | h :: _, Node.name lv => some (h, lv)
  | _, _ => ctx

mutual

/-- Modelled from the spec: all condition-observed paths of a template,
collected over every `if` with the enclosing loop context threaded. -/
def specObservedNode (ctx : Option (String × String)) : Node → List (List String)
  | Node.ifN test body elifB elseB =>
    specTestPaths ctx test ++ specObservedList ctx body ++
      specObservedList ctx elifB ++ specObservedList ctx elseB
  | Node.forN target iter body elseB _ =>
    specObservedList (specForCtx ctx target iter) body ++ specObservedList ctx elseB
  | Node.output ns => specObservedList ctx ns
  | Node.name _ => []
  | Node.getattr _ _ => []
  | Node.getitem _ _ => []
  | Node.andN _ _ => []
  | Node.orN _ _ => []
  | Node.notN _ => []
  | Node.compare _ _ => []
  | Node.constN => []
termination_by n => sizeOf n

def specObservedList (ctx : Option (String × String)) : List Node → List (List String)
  | [] => []
  | n :: rest => specObservedNode ctx n ++ specObservedList ctx rest
termination_by ns => sizeOf ns

end

/-- Python truthiness of a `Value` (empty string/dict/list and `False` are
falsy). -/
def pyTruthy : Value → Bool
  | Value.str s => !(s == "")
  | Value.boolV b => b
  | Value.obj l => !l.isEmpty
  | Value.listV l => !l.isEmpty

/-- Python truthiness of `d.get(k)` (`None` is falsy). -/
def truthyOpt : Option Value → Bool
  | some v => pyTruthy v
  | none => false

mutual

/-- CPython `str()` of a value as interpolated by the source's f-strings
(strings verbatim, `True`/`False` for booleans, `repr`-style rendering of
containers). -/
def pyStr : Value → String
  | Value.str s => s
  | v => pyRepr v

def pyRepr : Value → String
  | Value.str s => "'" ++ s ++ "'"
  | Value.boolV true => "True"
  | Value.boolV false => "False"
  | Value.obj es => "\x7b" ++ strJoinSep ", " (pyReprEntries es) ++ "\x7d"
  | Value.listV items => "[" ++ strJoinSep ", " (pyReprItems items) ++ "]"
termination_by v => (sizeOf v, 0)

def pyReprEntries : List (String × Value) → List String
  | [] => []
  | (k, v) :: rest => ("'" ++ k ++ "': " ++ pyRepr v) :: pyReprEntries rest
termination_by l => (sizeOf l, 0)

def pyReprItems : List Value → List String
  | [] => []
  | v :: rest => pyRepr v :: pyReprItems rest
termination_by l => (sizeOf l, 0)

end

/-- Helper for the source's list-item rendering: keep the non-blank lines of
an item block, the first prefixed with `"  - "`, the rest aligned. -/
def itemBlockLines : List String → String → Bool → List String
  | [], _, _ => []
  | l :: rest, pfx, first =>
    if pyStrip l = "" then itemBlockLines rest pfx first
    else (pfx ++ (if first then "  - " else "    ") ++ pyStrip l) :: itemBlockLines rest pfx false

mutual

/-- Source `_add_type_comments(data, indent)`: annotated YAML rendering with
type comments; non-dict input produces no lines. -/
def addTypeComments : Value → Nat → String
  | Value.obj entries, ind => strJoinSep "\n" (typeCommentLines entries ind)
  | _, _ => ""
termination_by v _ => sizeOf v

def typeCommentLines : List (String × Value) → Nat → List String
  | [], _ => []
  | (key, value) :: rest, ind =>
    let pfx := strConcat (List.replicate ind "  ")
    let lines :=
      match value with
      | Value.obj es =>
        if truthyOpt (dictGet es "__condition__") then
          let placeholder :=
            match dictGet es "value" with
            | some pv => pyStr pv
            | none => "<" ++ key ++ ">"
          [pfx ++ key ++ ": \"" ++ placeholder ++ "\"  # truthy value (boolean, string, number)"]
        else
          (pfx ++ key ++ ":  # object") :: [addTypeComments (Value.obj es) (ind + 1)]
      | Value.boolV b =>
        [pfx ++ key ++ ": " ++ (if b then "true" else "false") ++ "  # boolean"]
      | Value.str s =>
        if firstCharIs s '<' && lastCharIs s '>' then
          [pfx ++ key ++ ": \"" ++ s ++ "\"  # string"]
        else [pfx ++ key ++ ": " ++ s]
      | Value.listV [] => [pfx ++ key ++ ": []  # list"]
      | Value.listV (it :: its) =>
        (pfx ++ key ++ ":  # list") :: listItemLines (it :: its) pfx
    lines ++ typeCommentLines rest ind
termination_by l _ => sizeOf l

def listItemLines : List Value → String → List String
  | [], _ => []
  | item :: rest, pfx =>
    let ls :=
      match item with
      | Value.obj es =>
        itemBlockLines ((splitOnChar '\n' (addTypeComments (Value.obj es) 0).toList).map List.asString) pfx true
      | other => [pfx ++ "  - " ++ pyStr other]
    ls ++ listItemLines rest pfx
termination_by l _ => sizeOf l

end

mutual

/-- Source `_clean_structure_for_json`: strip condition markers down to
their bare placeholder value, recursing through dicts and lists. -/
def clean_structure_for_json : Value → Value
  | Value.obj entries => Value.obj (cleanEntries entries)
  | Value.listV items => Value.listV (cleanItems items)
  | v => v
termination_by v => sizeOf v

def cleanEntries : List (String × Value) → List (String × Value)
  | [] => []
  | (k, v) :: rest =>
    let v2 :=
      match v with
      | Value.obj es =>
        if truthyOpt (dictGet es "__condition__") then
          match dictGet es "value" with
          | some pv => pv
          | none => Value.str ("<" ++ k ++ ">")
        else clean_structure_for_json (Value.obj es)
      | Value.listV items => clean_structure_for_json (Value.listV items)
      | other => other
    (k, v2) :: cleanEntries rest
termination_by l => sizeOf l

def cleanItems : List Value → List Value
  | [] => []
  | v :: rest => clean_structure_for_json v :: cleanItems rest
termination_by l => sizeOf l

end

/-- JSON string escaping as performed by the external standard-library
serializer, modelled for the characters that occur in generated models. -/
def jsonEscapeChar (c : Char) : String :=
  if c = '"' then "\\\""
  else if c = '\\' then "\\\\"
  else if c = '\n' then "\\n"
  else if c = '\t' then "\\t"
  else if c = '\r' then "\\r"
  else List.asString [c]

/-- Escape every character of a string for JSON output. -/
def jsonEscape (s : String) : String := strConcat (s.toList.map jsonEscapeChar)

/-- Two-space indentation, as `json.dumps(..., indent=2)` uses. -/
def indentStr (n : Nat) : String := strConcat (List.replicate n "  ")

mutual

/-- External `json.dumps(value, indent=2)`, modelled structurally. -/
def jsonDump : Value → Nat → String
  | Value.str s, _ => "\"" ++ jsonEscape s ++ "\""
  | Value.boolV b, _ => if b then "true" else "false"
  | Value.obj [], _ => "\x7b\x7d"
  | Value.obj (e :: es), ind =>
    "\x7b\n" ++ strJoinSep ",\n" (jsonDumpEntries (e :: es) (ind + 1)) ++
      "\n" ++ indentStr ind ++ "\x7d"
  | Value.listV [], _ => "[]"
  | Value.listV (v :: vs), ind =>
    "[\n" ++ strJoinSep ",\n" (jsonDumpItems (v :: vs) (ind + 1)) ++
      "\n" ++ indentStr ind ++ "]"
termination_by v _ => sizeOf v

def jsonDumpEntries : List (String × Value) → Nat → List String
  | [], _ => []
  | (k, v) :: rest, ind =>
    (indentStr ind ++ "\"" ++ jsonEscape k ++ "\": " ++ jsonDump v ind) ::
      jsonDumpEntries rest ind
termination_by l _ => sizeOf l

def jsonDumpItems : List Value → Nat → List String
  | [], _ => []
  | v :: rest, ind => (indentStr ind ++ jsonDump v ind) :: jsonDumpItems rest ind
termination_by l _ => sizeOf l

end

/-- Source `generate_model(template_source, output_format)`: analyze, then
emit.  The parse result stands for the template source, parsing being the
external engine's job. -/
def generate_model (parsed : Except String (List Node)) (output_format : String) :
    Except String String :=
  match analyze parsed with
  | Except.error e => Except.error e
  | Except.ok structureV =>
    if structureV.isEmpty then
      Except.ok (if output_format == "json" then "\x7b\x7d\n"
                 else "# No variables found in template\n")
    else if output_format == "json" then
      Except.ok (jsonDump (clean_structure_for_json (Value.obj structureV)) 0 ++ "\n")
    else
      Except.ok (addTypeComments (Value.obj structureV) 0 ++ "\n")

/-- Index (from the left) of the last occurrence of a character. -/
def lastIdxOf (c : Char) : List Char → Option Nat
  | [] => none
  | x :: rest =>
    match lastIdxOf c rest with
    | some i => some (i + 1)
    | none => if x = c then some 0 else none

/-- CPython `PurePath.suffix` position: the last dot of the final component
counts only when it is neither leading nor trailing. -/
def pySuffixIdx (nm : List Char) : Option Nat :=
  match lastIdxOf '.' nm with
  | some i => if 0 < i ∧ i < nm.length - 1 then some i else none
  | none => none

/-- CPython `PurePath.with_suffix` on the path string: replace (or append,
when there is none) the final component's extension.  `pathlib`'s path
normalisation is not modelled; path strings are taken verbatim. -/
def withSuffix (p ext : String) : String :=
  let parts := splitOnChar '/' p.toList
  match parts.getLast? with
  | none => p ++ ext
  | some nm =>
    let newName :=
      match pySuffixIdx nm with
      | some i => (nm.take i).asString ++ ext
      | none => nm.asString ++ ext
    strJoinSep "/" (parts.dropLast.map List.asString ++ [newName])

/-- Source `generate_model_file(template_file, output_file, force,
output_format)`: the filesystem is modelled as an association list from path
to file text and the parser as a function argument; a successful run returns
the updated filesystem together with the output path.  Permission errors are
not modelled. -/
def generate_model_file (parse : String → Except String (List Node))
    (fs : List (String × String)) (template_file : String)
    (output_file : Option String) (force : Bool) (output_format : String) :
    Except String (List (String × String) × String) :=
  let outFile :=
    match output_file with
    | none => withSuffix template_file (if output_format == "json" then ".json" else ".yaml")
    | some o => o
  if (dictGet fs outFile).isSome && !force then
    Except.error ("Output file already exists: " ++ outFile ++ ". Use --force to overwrite.")
  else
    match dictGet fs template_file with
    | none => Except.error ("Template file not found: " ++ template_file)
    | some src =>
      match generate_model (parse src) output_format with
      | Except.error e => Except.error e
      | Except.ok content => Except.ok (dictSet fs outFile content, outFile)

/-- Parsed data document (YAML/JSON value) as consumed by the validator. -/
inductive DataValue where
  | dict (entries : List (String × DataValue))
  | listD (items : List DataValue)
  | strD (s : String)
  | intD (n : Int)
  | boolD (b : Bool)
  | nullD
deriving Repr

/-- Source `validator.get_data_keys`: the set of top-level keys of a
mapping, the empty set for any non-mapping document. -/
def get_data_keys : DataValue → List String
  | DataValue.dict entries => (entries.map Prod.fst).dedup
  | _ => []

/-- Whether a parsed data document is a mapping. -/
def isDict : DataValue → Bool
  | DataValue.dict _ => true
  | _ => false

/-- Python `sorted` over a set of strings. -/
def sortStrings (l : List String) : List String :=
  List.insertionSort (fun a b => a ≤ b) l

/-- Source `validator.validate(template_source, data)`: the template's
free-variable set is produced by the external engine (`jinja2.meta`) and is
an input here, modelled as a list read as a set.  On failure the error lists
the missing names sorted and comma-joined; on success the sorted unused-key
warnings are returned. -/
def validate (template_vars : List String) (data : DataValue) :
    Except String (List String) :=
  let data_keys := get_data_keys data
  let missing := template_vars.dedup.filter (fun v => !data_keys.contains v)
  if !missing.isEmpty then
    Except.error ("Missing variables in data file: " ++
      strJoinSep ", " (sortStrings missing))
  else
    let unused := data_keys.filter (fun k => !template_vars.contains k)
    Except.ok ((sortStrings unused).map (fun v => "Unused variable in data file: " ++ v))

/-- Unfolding lemma for `analyzeNode` on a `For` node. -/
@[simp] theorem analyzeNode_forN (target iter : Node) (body elseB : List Node)
    (test : Option Node) (lv : List String) (st : AnalyzerState) :
    analyzeNode (Node.forN target iter body elseB test) lv st =
      (let p := forPrelude target iter lv st
       let st1 := analyzeForBodyList body p.2.1 p.1 p.2.2.1 p.2.2.2
       let st2 := analyzeNodeList elseB lv st1
       match test with
       | some t => analyzeNode t lv st2
       | none => st2) := by
  rw [analyzeNode.eq_def] <;> rfl

/-- Unfolding lemma for `analyzeNode` on a `Getattr` node. -/
@[simp] theorem analyzeNode_getattr (base : Node) (attr : String)
    (lv : List String) (st : AnalyzerState) :
    analyzeNode (Node.getattr base attr) lv st =
      analyzeGetattrOrdinary (Node.getattr base attr) lv st := by
  rw [analyzeNode.eq_def] <;> rfl

/-- Unfolding lemma for `analyzeNode` on a `Name` node. -/
@[simp] theorem analyzeNode_name (n : String) (lv : List String) (st : AnalyzerState) :
    analyzeNode (Node.name n) lv st = analyzeNameOrdinary n lv st := by
  rw [analyzeNode.eq_def] <;> rfl

/-- Unfolding lemma for `analyzeNode` on an `Output` node. -/
@[simp] theorem analyzeNode_output (ns : List Node) (lv : List String) (st : AnalyzerState) :
    analyzeNode (Node.output ns) lv st = analyzeNodeList ns lv st := by
  rw [analyzeNode.eq_def] <;> rfl

/-- Unfolding lemma for `analyzeNode` on an `If` node. -/
@[simp] theorem analyzeNode_ifN (test : Node) (body elifB elseB : List Node)
    (lv : List String) (st : AnalyzerState) :
    analyzeNode (Node.ifN test body elifB elseB) lv st =
      (let st1 := { st with condition_paths := mark_condition_variable test lv st.condition_paths }
       let st2 := analyzeNode test lv st1
       let st3 := analyzeNodeList body lv st2
       let st4 := analyzeNodeList elifB lv st3
       let st5 := analyzeNodeList elseB lv st4
       analyzeNode test lv st5) := by
  rw [analyzeNode.eq_def] <;> rfl

/-- Unfolding lemma for `analyzeNode` on a `Getitem` node. -/
@[simp] theorem analyzeNode_getitem (base arg : Node) (lv : List String) (st : AnalyzerState) :
    analyzeNode (Node.getitem base arg) lv st = analyzeNode base lv st := by
  rw [analyzeNode.eq_def] <;> rfl

/-- Unfolding lemma for `analyzeNode` on an `And` node. -/
@[simp] theorem analyzeNode_andN (l r : Node) (lv : List String) (st : AnalyzerState) :
    analyzeNode (Node.andN l r) lv st = analyzeNode r lv (analyzeNode l lv st) := by
  rw [analyzeNode.eq_def] <;> rfl

/-- Unfolding lemma for `analyzeNode` on an `Or` node. -/
@[simp] theorem analyzeNode_orN (l r : Node) (lv : List String) (st : AnalyzerState) :
    analyzeNode (Node.orN l r) lv st = analyzeNode r lv (analyzeNode l lv st) := by
  rw [analyzeNode.eq_def] <;> rfl

/-- Unfolding lemma for `analyzeNode` on a `Not` node. -/
@[simp] theorem analyzeNode_notN (e : Node) (lv : List String) (st : AnalyzerState) :
    analyzeNode (Node.notN e) lv st = analyzeNode e lv st := by
  rw [analyzeNode.eq_def] <;> rfl

/-- Unfolding lemma for `analyzeNode` on a `Compare` node. -/
@[simp] theorem analyzeNode_compare (e : Node) (ops : List (String × Node))
    (lv : List String) (st : AnalyzerState) :
    analyzeNode (Node.compare e ops) lv st = analyzeNode e lv st := by
  rw [analyzeNode.eq_def] <;> rfl

/-- Unfolding lemma for `analyzeNode` on a constant node. -/
@[simp] theorem analyzeNode_constN (lv : List String) (st : AnalyzerState) :
    analyzeNode Node.constN lv st = st := by
  rw [analyzeNode.eq_def] <;> rfl

/-- Unfolding lemma for `analyzeNodeList` on the empty list. -/
@[simp] theorem analyzeNodeList_nil (lv : List String) (st : AnalyzerState) :
    analyzeNodeList [] lv st = st := by
  rw [analyzeNodeList.eq_def] <;> rfl

/-- Unfolding lemma for `analyzeNodeList` on a cons. -/
@[simp] theorem analyzeNodeList_cons (n : Node) (rest : List Node)
    (lv : List String) (st : AnalyzerState) :
    analyzeNodeList (n :: rest) lv st = analyzeNodeList rest lv (analyzeNode n lv st) := by
  rw [analyzeNodeList.eq_def] <;> rfl

/-- Unfolding lemma for `analyzeForBody` on a `Getattr` node. -/
@[simp] theorem analyzeForBody_getattr (base : Node) (attr : String) (ip : List String)
    (loop_var : Option String) (lvs : List String) (st : AnalyzerState) :
    analyzeForBody (Node.getattr base attr) ip loop_var lvs st =
      (match base with
       | Node.name m =>
         if some m = loop_var then
           match ip with
           | [] => st
           | h :: _ => add_loop_item_attribute h attr st
         else analyzeGetattrOrdinary (Node.getattr (Node.name m) attr) lvs st
       | _ => analyzeGetattrOrdinary (Node.getattr base attr) lvs st) := by
  rw [analyzeForBody.eq_def] <;> rfl

/-- Unfolding lemma for `analyzeForBody` on an `Output` node. -/
@[simp] theorem analyzeForBody_output (ns : List Node) (ip : List String)
    (loop_var : Option String) (lvs : List String) (st : AnalyzerState) :
    analyzeForBody (Node.output ns) ip loop_var lvs st =
      analyzeForBodyList ns ip loop_var lvs st := by
  rw [analyzeForBody.eq_def] <;> rfl

/-- Unfolding lemma for `analyzeForBody` on a nested `For` node (the source
falls back to `_analyze_node` on the whole node, whose `For` arm is inlined
here). -/
@[simp] theorem analyzeForBody_forN (target iter : Node) (body elseB : List Node)
    (test : Option Node) (ip : List String) (loop_var : Option String)
    (lvs : List String) (st : AnalyzerState) :
    analyzeForBody (Node.forN target iter body elseB test) ip loop_var lvs st =
      analyzeNode (Node.forN target iter body elseB test) lvs st := by
  conv_lhs => rw [analyzeForBody.eq_def]
  try conv_rhs => rw [analyzeNode.eq_def]
  try rfl

/-- Unfolding lemma for `analyzeForBody` on an `If` node. -/
@[simp] theorem analyzeForBody_ifN (test : Node) (body elifB elseB : List Node)
    (ip : List String) (loop_var : Option String) (lvs : List String) (st : AnalyzerState) :
    analyzeForBody (Node.ifN test body elifB elseB) ip loop_var lvs st =
      (let st1 := { st with condition_paths := mark_loop_condition_variable test ip loop_var st.condition_paths }
       let st2 := analyzeForBody test ip loop_var lvs st1
       let st3 := analyzeForBodyList body ip loop_var lvs st2
       analyzeForBodyList elseB ip loop_var lvs st3) := by
  rw [analyzeForBody.eq_def] <;> rfl

/-- Unfolding lemma for `analyzeForBody` on a `Name` node (ordinary
handling, as the source's final `else`). -/
@[simp] theorem analyzeForBody_name (n : String) (ip : List String)
    (loop_var : Option String) (lvs : List String) (st : AnalyzerState) :
    analyzeForBody (Node.name n) ip loop_var lvs st = analyzeNameOrdinary n lvs st := by
  rw [analyzeForBody.eq_def] <;> rfl

/-- Unfolding lemma for `analyzeForBody` on a `Getitem` node. -/
@[simp] theorem analyzeForBody_getitem (base arg : Node) (ip : List String)
    (loop_var : Option String) (lvs : List String) (st : AnalyzerState) :
    analyzeForBody (Node.getitem base arg) ip loop_var lvs st = analyzeNode base lvs st := by
  conv_lhs => rw [analyzeForBody.eq_def]
  try rfl

/-- Unfolding lemma for `analyzeForBody` on an `And` node. -/
@[simp] theorem analyzeForBody_andN (l r : Node) (ip : List String)
    (loop_var : Option String) (lvs : List String) (st : AnalyzerState) :
    analyzeForBody (Node.andN l r) ip loop_var lvs st =
      analyzeNode r lvs (analyzeNode l lvs st) := by
  conv_lhs => rw [analyzeForBody.eq_def]
  try rfl

/-- Unfolding lemma for `analyzeForBody` on an `Or` node. -/
@[simp] theorem analyzeForBody_orN (l r : Node) (ip : List String)
    (loop_var : Option String) (lvs : List String) (st : AnalyzerState) :
    analyzeForBody (Node.orN l r) ip loop_var lvs st =
      analyzeNode r lvs (analyzeNode l lvs st) := by
  conv_lhs => rw [analyzeForBody.eq_def]
  try rfl

/-- Unfolding lemma for `analyzeForBody` on a `Not` node. -/
@[simp] theorem analyzeForBody_notN (e : Node) (ip : List String)
    (loop_var : Option String) (lvs : List String) (st : AnalyzerState) :
    analyzeForBody (Node.notN e) ip loop_var lvs st = analyzeNode e lvs st := by
  conv_lhs => rw [analyzeForBody.eq_def]
  try rfl

/-- Unfolding lemma for `analyzeForBody` on a `Compare` node. -/
@[simp] theorem analyzeForBody_compare (e : Node) (ops : List (String × Node))
    (ip : List String) (loop_var : Option String) (lvs : List String) (st : AnalyzerState) :
    analyzeForBody (Node.compare e ops) ip loop_var lvs st = analyzeNode e lvs st := by
  conv_lhs => rw [analyzeForBody.eq_def]
  try rfl

/-- Unfolding lemma for `analyzeForBody` on a constant node. -/
@[simp] theorem analyzeForBody_constN (ip : List String) (loop_var : Option String)
    (lvs : List String) (st : AnalyzerState) :
    analyzeForBody Node.constN ip loop_var lvs st = st := by
  rw [analyzeForBody.eq_def] <;> rfl

/-- Unfolding lemma for `analyzeForBodyList` on the empty list. -/
@[simp] theorem analyzeForBodyList_nil (ip : List String) (loop_var : Option String)
    (lvs : List String) (st : AnalyzerState) :
    analyzeForBodyList [] ip loop_var lvs st = st := by
  rw [analyzeForBodyList.eq_def] <;> rfl

/-- Unfolding lemma for `analyzeForBodyList` on a cons. -/
@[simp] theorem analyzeForBodyList_cons (n : Node) (rest : List Node) (ip : List String)
    (loop_var : Option String) (lvs : List String) (st : AnalyzerState) :
    analyzeForBodyList (n :: rest) ip loop_var lvs st =
      analyzeForBodyList rest ip loop_var lvs (analyzeForBody n ip loop_var lvs st) := by
  rw [analyzeForBodyList.eq_def] <;> rfl

/-- Sweeping the model with an empty condition registry changes nothing. -/
theorem apply_condition_markers_nil (data : List (String × Value)) (cur : List String) :
    apply_condition_markers [] data cur = data := by
  induction data, cur using (apply_condition_markers.induct []) with
  | case1 cur2 => rw [apply_condition_markers]
  | case2 k v rest cur2 pth ihmatch ihrest =>
    cases v with
    | str s =>
      rw [apply_condition_markers]
      simp [List.contains, List.elem, ihrest]
    | obj entries =>
      simp only at ihmatch
      rw [apply_condition_markers]
      by_cases hc : (dictGet entries "__condition__").isSome
      · simp [hc, ihrest]
      · simp [hc, ihrest, ihmatch]
    | boolV b =>
      rw [apply_condition_markers] <;> simp [ihrest]
    | listV items =>
      rw [apply_condition_markers] <;> simp [ihrest]

/-- Replacing an existing key in place is found back by `find?`. -/
theorem find_map_set {α : Type} (k : String) (v : α) (d : List (String × α))
    (h : d.any (fun p => p.1 == k) = true) :
    (d.map (fun p => if p.1 == k then (k, v) else p)).find? (fun p => p.1 == k) =
      some (k, v) := by
  induction d with
  | nil => simp at h
  | cons p rest ih =>
    cases hk : (p.1 == k) with
    | true =>
      simp only [List.map_cons, hk, if_true, List.find?_cons]
      simp
    | false =>
      simp only [List.any_cons, hk, Bool.false_or] at h
      simp only [List.map_cons, hk, if_false, List.find?_cons, Bool.false_eq_true]
      simp only [hk, ih h]

/-- Python dict semantics: after `d[k] = v`, looking up `k` yields `v`. -/
theorem dictGet_dictSet {α : Type} (d : List (String × α)) (k : String) (v : α) :
    dictGet (dictSet d k v) k = some v := by
  unfold dictGet dictSet
  cases h : d.any (fun p => p.1 == k) with
  | true =>
    simp only [h, if_true]
    rw [find_map_set k v d h]
    rfl
  | false =>
    have hnone : d.find? (fun p => p.1 == k) = none := by
      rw [List.find?_eq_none]
      intro x hx hpx
      have hany : d.any (fun p => p.1 == k) = true := List.any_eq_true.mpr ⟨x, hx, hpx⟩
      rw [hany] at h
      exact Bool.true_eq_false.mp h
    simp [h, List.find?_append, hnone]

/-- `generate_model` never fails on a successfully parsed template. -/
theorem generate_model_ok (body : List Node) (fmt : String) :
    ∃ c, generate_model (Except.ok body) fmt = Except.ok c := by
  unfold generate_model
  simp only [analyze]
  by_cases h1 : (analyzeResult body).isEmpty <;> by_cases h2 : (fmt == "json") = true <;>
    simp [h1, h2]

/-- C1 counterexample: in the template `{{ a.b.c }}{{ a }}` the top-level
name `a` is referenced both via an attribute path and as a bare variable,
yet the analyzed model maps `a` to the scalar placeholder, not the nested
object shape: the bare reference is merged after the object entry and
`_merge_nested_dict` overwrites the object with the scalar. -/
theorem c1_counterexample :
    analyzeResult [Node.output [Node.getattr (Node.getattr (Node.name "a") "b") "c",
        Node.name "a"]] = [("a", Value.str "<a>")] ∧
    analyzeResult [Node.output [Node.getattr (Node.getattr (Node.name "a") "b") "c",
        Node.name "a"]] ≠
      [("a", Value.obj [("b", Value.obj [("c", Value.str "<c>")])])] := by
  have h : analyzeResult [Node.output [Node.getattr (Node.getattr (Node.name "a") "b") "c",
      Node.name "a"]] = [("a", Value.str "<a>")] := by
    simp [analyzeResult, initState, analyzeGetattrOrdinary, analyzeNameOrdinary,
          get_attribute_path, merge_nested_dict, build_nested_structure, dictGet, dictSet,
          apply_condition_markers, List.contains, List.elem]
  refine ⟨h, ?_⟩
  rw [h]
  simp

/-- C1 (amended): merging is last-kind-wins except that two objects union
recursively.  When the bare reference precedes the attribute path, the name
is upgraded to the nested object shape; when a bare reference is analyzed
after an object entry exists, the scalar placeholder overwrites the
object. -/
theorem c1_amended (a b c : String) :
    analyzeResult [Node.output [Node.name a,
        Node.getattr (Node.getattr (Node.name a) b) c]] =
      [(a, Value.obj [(b, Value.obj [(c, Value.str ("<" ++ c ++ ">"))])])] ∧
    analyzeResult [Node.output [Node.getattr (Node.getattr (Node.name a) b) c,
        Node.name a]] = [(a, Value.str ("<" ++ a ++ ">"))] := by
  constructor <;>
    simp [analyzeResult, initState, analyzeGetattrOrdinary, analyzeNameOrdinary,
          get_attribute_path, merge_nested_dict, build_nested_structure, dictGet, dictSet,
          apply_condition_markers_nil]

/-- C2 counterexample: in
`{% for x in items %}{{ x.a }}{% endfor %}{{ items }}` the unshadowed
top-level name `items` is the iterable of a loop, but the bare scalar
reference after the loop overwrites the single-element list with the scalar
placeholder, so list representation does not win. -/
theorem c2_counterexample :
    analyzeResult [Node.forN (Node.name "x") (Node.name "items")
        [Node.output [Node.getattr (Node.name "x") "a"]] [] none,
      Node.output [Node.name "items"]] = [("items", Value.str "<items>")] ∧
    analyzeResult [Node.forN (Node.name "x") (Node.name "items")
        [Node.output [Node.getattr (Node.name "x") "a"]] [] none,
      Node.output [Node.name "items"]] ≠
      [("items", Value.listV [Value.obj [("a", Value.str "<a>")]])] := by
  have h : analyzeResult [Node.forN (Node.name "x") (Node.name "items")
      [Node.output [Node.getattr (Node.name "x") "a"]] [] none,
      Node.output [Node.name "items"]] = [("items", Value.str "<items>")] := by
    simp [analyzeResult, initState, forPrelude, analyzeGetattrOrdinary, analyzeNameOrdinary,
          get_attribute_path, merge_nested_dict, build_nested_structure, dictGet, dictSet,
          apply_condition_markers, add_loop_item_attribute, setAdd, List.contains, List.elem]
  refine ⟨h, ?_⟩
  rw [h]
  simp

/-- C2 (amended): a loop-item attribute access always (re)establishes the
iterable name as a list entry whatever the previous shape, so list
representation wins over scalar references analyzed before or inside the
loop; but a bare scalar reference analyzed after the loop overwrites the
list entry with the scalar placeholder. -/
theorem c2_amended :
    (∀ (list_name attr : String) (st : AnalyzerState),
      ∃ items, dictGet (add_loop_item_attribute list_name attr st).vars list_name =
        some (Value.listV items)) ∧
    (∀ (n : String) (lv : List String) (st : AnalyzerState),
      lv.contains n = false →
      dictGet (analyzeNameOrdinary n lv st).vars n =
        some (Value.str ("<" ++ n ++ ">"))) ∧
    analyzeResult [Node.output [Node.name "items"],
        Node.forN (Node.name "x") (Node.name "items")
          [Node.output [Node.getattr (Node.name "x") "a"]] [] none] =
      [("items", Value.listV [Value.obj [("a", Value.str "<a>")]])] := by
  refine ⟨?_, ?_, ?_⟩
  · intro l a st
    unfold add_loop_item_attribute
    rcases hg : dictGet st.vars l with _ | v
    · simp only [hg, dictGet_dictSet]
      exact ⟨_, rfl⟩
    · cases v with
      | str s =>
        simp only [hg, dictGet_dictSet]
        exact ⟨_, rfl⟩
      | boolV b =>
        simp only [hg, dictGet_dictSet]
        exact ⟨_, rfl⟩
      | obj e =>
        simp only [hg, dictGet_dictSet]
        exact ⟨_, rfl⟩
      | listV items =>
        cases items with
        | nil =>
          simp only [hg, dictGet_dictSet]
          exact ⟨_, rfl⟩
        | cons hd t =>
          cases hd with
          | obj entries =>
            simp only [hg, dictGet_dictSet]
            exact ⟨_, rfl⟩
          | str s => simp only [hg]; exact ⟨_, rfl⟩
          | boolV b => simp only [hg]; exact ⟨_, rfl⟩
          | listV l2 => simp only [hg]; exact ⟨_, rfl⟩
  · intro n lv st h
    unfold analyzeNameOrdinary
    rw [h]
    simp only [Bool.false_eq_true, if_false, merge_nested_dict]
    exact dictGet_dictSet _ _ _
  · simp [analyzeResult, initState, forPrelude, analyzeGetattrOrdinary, analyzeNameOrdinary,
          get_attribute_path, merge_nested_dict, build_nested_structure, dictGet, dictSet,
          apply_condition_markers, add_loop_item_attribute, setAdd, List.contains, List.elem]

/-- C2 witness: the scalar-overwrite half of the amended claim at a concrete
input. -/
theorem c2_witness :
    dictGet (analyzeNameOrdinary "items" [] initState).vars "items" =
      some (Value.str "<items>") :=
  c2_amended.2.1 "items" [] initState rfl

/-- C3 counterexample: in the template
`{% for item in items %}{% for y in item %}{{ y.a }}{% endfor %}{% endfor %}`
the name `item` is bound as the outer loop target, yet the analyzed model
contains `item` as a top-level key: the inner loop iterates over `item` and
the loop-item attribute insertion is not guarded by the shadow set. -/
theorem c3_counterexample :
    analyzeResult [Node.forN (Node.name "item") (Node.name "items")
        [Node.forN (Node.name "y") (Node.name "item")
          [Node.output [Node.getattr (Node.name "y") "a"]] [] none] [] none] =
      [("item", Value.listV [Value.obj [("a", Value.str "<a>")]])] := by
  simp [analyzeResult, initState, forPrelude, analyzeGetattrOrdinary, analyzeNameOrdinary,
        get_attribute_path, merge_nested_dict, build_nested_structure, dictGet, dictSet,
        apply_condition_markers, add_loop_item_attribute, setAdd, List.contains, List.elem]

/-- C3 (amended): for `{% for item in items %}{{ item.name }}{% endfor %}`
the model is exactly `{items: [{name: "<name>"}]}`, and ordinary
`Name`/`Getattr` handling leaves the state unchanged whenever the referenced
top-level name is in the active shadow set; but the loop target can still
surface as a top-level key through a nested loop that iterates over it. -/
theorem c3_amended :
    analyzeResult [Node.forN (Node.name "item") (Node.name "items")
        [Node.output [Node.getattr (Node.name "item") "name"]] [] none] =
      [("items", Value.listV [Value.obj [("name", Value.str "<name>")]])] ∧
    (∀ (n : String) (lv : List String) (st : AnalyzerState),
      lv.contains n = true → analyzeNameOrdinary n lv st = st) ∧
    (∀ (nd : Node) (attr : String) (lv : List String) (st : AnalyzerState)
      (h : String) (t : List String),
      get_attribute_path (Node.getattr nd attr) = h :: t → lv.contains h = true →
      analyzeGetattrOrdinary (Node.getattr nd attr) lv st = st) := by
  refine ⟨?_, ?_, ?_⟩
  · simp [analyzeResult, initState, forPrelude, analyzeGetattrOrdinary, analyzeNameOrdinary,
          get_attribute_path, merge_nested_dict, build_nested_structure, dictGet, dictSet,
          apply_condition_markers, add_loop_item_attribute, setAdd, List.contains, List.elem]
  · intro n lv st h
    unfold analyzeNameOrdinary
    rw [h]
    simp
  · intro nd attr lv st h t hpath hlv
    unfold analyzeGetattrOrdinary
    rw [hpath]
    simp only [hlv, if_true]

/-- C3 witness: shadowed ordinary handling at a concrete input. -/
theorem c3_witness : analyzeNameOrdinary "item" ["item"] initState = initState :=
  c3_amended.2.1 "item" ["item"] initState rfl

/-- C4: for
`{% for task in tasks %}{% if task.done %}{{ task.name }}{% endif %}{% endfor %}`
the model is `{tasks: [{done: condition-tagged "<done>", name: "<name>"}]}`:
the tested attribute is registered in the condition registry before
insertion and so carries the marker, while `name` does not. -/
theorem c4_claim :
    analyzeResult [Node.forN (Node.name "task") (Node.name "tasks")
        [Node.ifN (Node.getattr (Node.name "task") "done")
          [Node.output [Node.getattr (Node.name "task") "name"]] [] []] [] none] =
      [("tasks", Value.listV [Value.obj
        [("done", mkCondition "<done>"), ("name", Value.str "<name>")]])] := by
  simp [analyzeResult, initState, forPrelude, analyzeGetattrOrdinary, analyzeNameOrdinary,
        get_attribute_path, merge_nested_dict, build_nested_structure, dictGet, dictSet,
        apply_condition_markers, add_loop_item_attribute, setAdd, mkCondition,
        mark_loop_condition_variable, mark_condition_variable, List.contains, List.elem]

/-- Unfolding lemma for `specObservedNode` on an `If` node. -/
@[simp] theorem specObservedNode_ifN (ctx : Option (String × String)) (test : Node)
    (body elifB elseB : List Node) :
    specObservedNode ctx (Node.ifN test body elifB elseB) =
      specTestPaths ctx test ++ specObservedList ctx body ++
        specObservedList ctx elifB ++ specObservedList ctx elseB := by
  rw [specObservedNode.eq_def] <;> rfl

/-- Unfolding lemma for `specObservedNode` on a `For` node. -/
@[simp] theorem specObservedNode_forN (ctx : Option (String × String)) (target iter : Node)
    (body elseB : List Node) (test : Option Node) :
    specObservedNode ctx (Node.forN target iter body elseB test) =
      specObservedList (specForCtx ctx target iter) body ++ specObservedList ctx elseB := by
  rw [specObservedNode.eq_def] <;> rfl

/-- Unfolding lemma for `specObservedNode` on an `Output` node. -/
@[simp] theorem specObservedNode_output (ctx : Option (String × String)) (ns : List Node) :
    specObservedNode ctx (Node.output ns) = specObservedList ctx ns := by
  rw [specObservedNode.eq_def] <;> rfl

/-- Unfolding lemma for `specObservedNode` on a `Name` node. -/
@[simp] theorem specObservedNode_name (ctx : Option (String × String)) (n : String) :
    specObservedNode ctx (Node.name n) = [] := by
  rw [specObservedNode.eq_def] <;> rfl

/-- Unfolding lemma for `specObservedNode` on a `Getattr` node. -/
@[simp] theorem specObservedNode_getattr (ctx : Option (String × String)) (base : Node)
    (attr : String) :
    specObservedNode ctx (Node.getattr base attr) = [] := by
  rw [specObservedNode.eq_def] <;> rfl

/-- Unfolding lemma for `specObservedNode` on a `Getitem` node. -/
@[simp] theorem specObservedNode_getitem (ctx : Option (String × String)) (base arg : Node) :
    specObservedNode ctx (Node.getitem base arg) = [] := by
  rw [specObservedNode.eq_def] <;> rfl

/-- Unfolding lemma for `specObservedNode` on an `And` node. -/
@[simp] theorem specObservedNode_andN (ctx : Option (String × String)) (l r : Node) :
    specObservedNode ctx (Node.andN l r) = [] := by
  rw [specObservedNode.eq_def] <;> rfl

/-- Unfolding lemma for `specObservedNode` on an `Or` node. -/
@[simp] theorem specObservedNode_orN (ctx : Option (String × String)) (l r : Node) :
    specObservedNode ctx (Node.orN l r) = [] := by
  rw [specObservedNode.eq_def] <;> rfl

/-- Unfolding lemma for `specObservedNode` on a `Not` node. -/
@[simp] theorem specObservedNode_notN (ctx : Option (String × String)) (e : Node) :
    specObservedNode ctx (Node.notN e) = [] := by
  rw [specObservedNode.eq_def] <;> rfl

/-- Unfolding lemma for `specObservedNode` on a `Compare` node. -/
@[simp] theorem specObservedNode_compare (ctx : Option (String × String)) (e : Node)
    (ops : List (String × Node)) :
    specObservedNode ctx (Node.compare e ops) = [] := by
  rw [specObservedNode.eq_def] <;> rfl

/-- Unfolding lemma for `specObservedNode` on a constant node. -/
@[simp] theorem specObservedNode_constN (ctx : Option (String × String)) :
    specObservedNode ctx Node.constN = [] := by
  rw [specObservedNode.eq_def] <;> rfl

/-- Unfolding lemma for `specObservedList` on the empty list. -/
@[simp] theorem specObservedList_nil (ctx : Option (String × String)) :
    specObservedList ctx [] = [] := by
  rw [specObservedList.eq_def] <;> rfl

/-- Unfolding lemma for `specObservedList` on a cons. -/
@[simp] theorem specObservedList_cons (ctx : Option (String × String)) (n : Node)
    (rest : List Node) :
    specObservedList ctx (n :: rest) = specObservedNode ctx n ++ specObservedList ctx rest := by
  rw [specObservedList.eq_def] <;> rfl

/-- C5 counterexample: in `{% if x == 1 %}ok{% endif %}` the path `x` is
neither the direct test expression of the `if` (the comparison is) nor a
boolean operand within it, so the spec-side observation set is empty; yet
the code condition-tags `x`, because `_mark_condition_variable` recurses
into the comparison's `expr` child field. -/
theorem c5_counterexample :
    specObservedList none [Node.ifN (Node.compare (Node.name "x") [("eq", Node.constN)])
        [Node.output [Node.constN]] [] []] = [] ∧
    analyzeResult [Node.ifN (Node.compare (Node.name "x") [("eq", Node.constN)])
        [Node.output [Node.constN]] [] []] = [("x", mkCondition "<x>")] := by
  constructor
  · simp [specTestPaths, specForCtx]
  · simp [analyzeResult, initState, analyzeGetattrOrdinary, analyzeNameOrdinary,
          get_attribute_path, merge_nested_dict, build_nested_structure, dictGet, dictSet,
          apply_condition_markers, mark_condition_variable, setAdd, mkCondition,
          List.contains, List.elem]

/-- C5 (amended): for `{% if active %}{{ message }}{% endif %}` the leaf for
`active` is condition-tagged with placeholder `<active>` and `message` is
the plain string `<message>`; however the registry covers every path
reachable from an `if` test through the child fields `node`/`expr`/`left`/
`right` (so a comparison operand is tagged), while inside a loop body only
loop-item attribute paths are registered (so a top-level name used as the
direct test of an `if` inside a loop body is not tagged). -/
theorem c5_amended :
    analyzeResult [Node.ifN (Node.name "active")
        [Node.output [Node.name "message"]] [] []] =
      [("active", mkCondition "<active>"), ("message", Value.str "<message>")] ∧
    analyzeResult [Node.ifN (Node.compare (Node.name "x") [("eq", Node.constN)])
        [Node.output [Node.constN]] [] []] = [("x", mkCondition "<x>")] ∧
    analyzeResult [Node.forN (Node.name "x") (Node.name "items")
        [Node.ifN (Node.name "flag") [Node.output [Node.getattr (Node.name "x") "a"]] [] []]
        [] none] =
      [("flag", Value.str "<flag>"), ("items", Value.listV [Value.obj [("a", Value.str "<a>")]])] := by
  refine ⟨?_, ?_, ?_⟩ <;>
    simp [analyzeResult, initState, forPrelude, analyzeGetattrOrdinary, analyzeNameOrdinary,
          get_attribute_path, merge_nested_dict, build_nested_structure, dictGet, dictSet,
          apply_condition_markers, mark_condition_variable, mark_loop_condition_variable,
          add_loop_item_attribute, setAdd, mkCondition, List.contains, List.elem]

/-- C6 counterexample: the template `{% if cond %}{% endif %}` has no
expression output, yet `analyze` returns a non-empty model, because the
`if` test's variable is inserted by the test traversal. -/
theorem c6_counterexample :
    listHasExprOutput [Node.ifN (Node.name "cond") [] [] []] = false ∧
    analyze (Except.ok [Node.ifN (Node.name "cond") [] [] []]) =
      Except.ok [("cond", mkCondition "<cond>")] ∧
    ([("cond", mkCondition "<cond>")] : List (String × Value)) ≠ [] := by
  refine ⟨?_, ?_, ?_⟩
  · simp [listHasExprOutput, nodeHasExprOutput, outputChildrenHaveExpr]
  · simp [analyze, analyzeResult, initState, analyzeNameOrdinary, merge_nested_dict,
          dictGet, dictSet, apply_condition_markers, mark_condition_variable, setAdd,
          mkCondition, List.contains, List.elem]
  · simp

/-- C6 (amended): `analyze` fails exactly on a parse failure, wrapping the
parser diagnostic as `"Invalid template syntax: " ++ msg`; on any parsed
template it returns normally; a constant-only template yields the empty
model (but a template without expression output can still yield a non-empty
model, see the counterexample). -/
theorem c6_amended (e : String) (body : List Node) :
    analyze (Except.error e) = Except.error ("Invalid template syntax: " ++ e) ∧
    (∀ msg, analyze (Except.ok body) ≠ Except.error msg) ∧
    analyze (Except.ok [Node.output [Node.constN]]) = Except.ok [] := by
  refine ⟨rfl, ?_, ?_⟩
  · intro msg h
    simp [analyze] at h
  · simp [analyze, analyzeResult, initState, apply_condition_markers]

/-- C6 witness: the amended claim at a concrete input. -/
theorem c6_witness :
    analyze (Except.error "boom") = Except.error ("Invalid template syntax: " ++ "boom") ∧
    analyze (Except.ok [Node.name "v"]) ≠ Except.error "nope" :=
  ⟨(c6_amended "boom" [Node.name "v"]).1, (c6_amended "boom" [Node.name "v"]).2.1 "nope"⟩

/-- C8 counterexample: `{% if x %}hello{% endif %}` has no expression
output, yet `analyze` returns a non-empty model and `generate_model` emits
an annotated line for `x` instead of the no-variables comment. -/
theorem c8_counterexample :
    listHasExprOutput [Node.ifN (Node.name "x") [Node.output [Node.constN]] [] []] = false ∧
    generate_model (Except.ok [Node.ifN (Node.name "x") [Node.output [Node.constN]] [] []])
        "yaml" =
      Except.ok "x: \"<x>\"  # truthy value (boolean, string, number)\n" ∧
    ("x: \"<x>\"  # truthy value (boolean, string, number)\n" : String) ≠
      "# No variables found in template\n" := by
  refine ⟨?_, ?_, ?_⟩
  · simp [listHasExprOutput, nodeHasExprOutput, outputChildrenHaveExpr]
  · have h : analyzeResult [Node.ifN (Node.name "x") [Node.output [Node.constN]] [] []] =
        [("x", mkCondition "<x>")] := by
      simp [analyzeResult, initState, analyzeNameOrdinary, merge_nested_dict,
            dictGet, dictSet, apply_condition_markers, mark_condition_variable, setAdd,
            mkCondition, List.contains, List.elem]
    simp [generate_model, analyze, h, addTypeComments, typeCommentLines, truthyOpt,
          pyTruthy, pyStr, mkCondition, dictGet, strJoinSep, strConcat]
    rfl
  · decide

/-- C8 (amended): for every template whose analysis yields the empty model
(in particular any template with no variable references at all),
`generate_model` returns exactly the no-variables comment in YAML mode and
exactly the empty-object literal in JSON mode; "no expression output" alone
does not guarantee an empty model. -/
theorem c8_amended (body : List Node) (h : analyzeResult body = []) :
    generate_model (Except.ok body) "yaml" =
      Except.ok "# No variables found in template\n" ∧
    generate_model (Except.ok body) "json" = Except.ok "\x7b\x7d\n" := by
  constructor <;> simp [generate_model, analyze, h]

/-- C8 witness: the amended claim at the constant-only template. -/
theorem c8_witness :
    generate_model (Except.ok [Node.output [Node.constN]]) "yaml" =
      Except.ok "# No variables found in template\n" ∧
    generate_model (Except.ok [Node.output [Node.constN]]) "json" =
      Except.ok "\x7b\x7d\n" :=
  c8_amended [Node.output [Node.constN]]
    (by simp [analyzeResult, initState, apply_condition_markers])

/-- C7: `validate` fails iff some template variable is missing from the
data's top-level keys; the error lists exactly the missing names, sorted
and comma-joined; otherwise it returns one warning per unused top-level
data key, sorted, one per name. -/
theorem c7_claim (template_vars : List String) (data : DataValue) :
    ((∃ v, v ∈ template_vars ∧ v ∉ get_data_keys data) →
      ∃ L, validate template_vars data =
          Except.error ("Missing variables in data file: " ++ strJoinSep ", " L) ∧
        List.Sorted (fun a b => a ≤ b) L ∧
        (∀ v, v ∈ L ↔ v ∈ template_vars ∧ v ∉ get_data_keys data)) ∧
    ((∀ v ∈ template_vars, v ∈ get_data_keys data) →
      ∃ U, validate template_vars data =
          Except.ok (U.map (fun v => "Unused variable in data file: " ++ v)) ∧
        List.Sorted (fun a b => a ≤ b) U ∧ U.Nodup ∧
        (∀ v, v ∈ U ↔ v ∈ get_data_keys data ∧ v ∉ template_vars)) := by
  constructor
  · rintro ⟨v0, hv0, hnv0⟩
    refine ⟨sortStrings (template_vars.dedup.filter
        (fun v => !(get_data_keys data).contains v)), ?_, ?_, ?_⟩
    · unfold validate
      have hmem : v0 ∈ template_vars.dedup.filter
          (fun v => !(get_data_keys data).contains v) := by
        rw [List.mem_filter]
        refine ⟨List.mem_dedup.mpr hv0, ?_⟩
        simp [List.contains, List.elem_eq_mem, hnv0]
      have hne : (template_vars.dedup.filter
          (fun v => !(get_data_keys data).contains v)).isEmpty = false := by
        cases hemp : template_vars.dedup.filter
            (fun v => !(get_data_keys data).contains v) with
        | nil => rw [hemp] at hmem; exact absurd hmem (List.not_mem_nil v0)
        | cons a l => simp
      simp only [hne, Bool.not_false, if_true, sortStrings]
    · exact List.sorted_insertionSort _ _
    · intro v
      rw [sortStrings, (List.perm_insertionSort _ _).mem_iff, List.mem_filter,
        List.mem_dedup]
      simp [List.contains, List.elem_eq_mem]
  · intro hall
    refine ⟨sortStrings ((get_data_keys data).filter
        (fun k => !template_vars.contains k)), ?_, ?_, ?_, ?_⟩
    · unfold validate
      have hemp : template_vars.dedup.filter
          (fun v => !(get_data_keys data).contains v) = [] := by
        rw [List.filter_eq_nil_iff]
        intro a ha
        have : a ∈ get_data_keys data := hall a (List.mem_dedup.mp ha)
        simp [List.contains, List.elem_eq_mem, this]
      simp only [hemp, List.isEmpty_nil, Bool.not_true, Bool.false_eq_true, if_false,
        sortStrings]
    · exact List.sorted_insertionSort _ _
    · refine ((List.perm_insertionSort _ _).nodup_iff).mpr ?_
      refine List.Nodup.filter _ ?_
      unfold get_data_keys
      cases data <;> simp [List.nodup_dedup]
    · intro v
      rw [sortStrings, (List.perm_insertionSort _ _).mem_iff, List.mem_filter]
      simp [List.contains, List.elem_eq_mem]

/-- C7 witness: both branches of the claim at concrete inputs. -/
theorem c7_witness :
    (∃ L, validate ["b", "a"] (DataValue.dict [("a", DataValue.strD "1")]) =
        Except.error ("Missing variables in data file: " ++ strJoinSep ", " L) ∧
      List.Sorted (fun a b => a ≤ b) L ∧
      (∀ v, v ∈ L ↔ v ∈ ["b", "a"] ∧
        v ∉ get_data_keys (DataValue.dict [("a", DataValue.strD "1")]))) ∧
    (∃ U, validate ["name"] (DataValue.dict [("name", DataValue.strD "w"),
          ("extra", DataValue.strD "e")]) =
        Except.ok (U.map (fun v => "Unused variable in data file: " ++ v)) ∧
      List.Sorted (fun a b => a ≤ b) U ∧ U.Nodup ∧
      (∀ v, v ∈ U ↔ v ∈ get_data_keys (DataValue.dict [("name", DataValue.strD "w"),
          ("extra", DataValue.strD "e")]) ∧ v ∉ ["name"])) :=
  ⟨(c7_claim ["b", "a"] (DataValue.dict [("a", DataValue.strD "1")])).1
      ⟨"b", by decide, by decide⟩,
    (c7_claim ["name"] (DataValue.dict [("name", DataValue.strD "w"),
        ("extra", DataValue.strD "e")])).2 (by decide)⟩

/-- C10: a non-mapping data document has no top-level keys, so `validate`
reports every template variable as missing whenever there is at least one,
and succeeds with no warnings when the template references none. -/
theorem c10_claim (template_vars : List String) (data : DataValue)
    (h : isDict data = false) :
    get_data_keys data = [] ∧
    (∀ v0, v0 ∈ template_vars →
      ∃ L, validate template_vars data =
          Except.error ("Missing variables in data file: " ++ strJoinSep ", " L) ∧
        (∀ v, v ∈ L ↔ v ∈ template_vars)) ∧
    (template_vars = [] → validate template_vars data = Except.ok []) := by
  have hkeys : get_data_keys data = [] := by
    cases data <;> simp_all [isDict, get_data_keys]
  refine ⟨hkeys, ?_, ?_⟩
  · intro v0 hv0
    refine ⟨sortStrings template_vars.dedup, ?_, ?_⟩
    · unfold validate
      rw [hkeys]
      have hfilter : template_vars.dedup.filter
          (fun v => !([] : List String).contains v) = template_vars.dedup := by
        rw [List.filter_eq_self]
        intro a ha
        rfl
      have hne : template_vars.dedup.isEmpty = false := by
        cases hemp : template_vars.dedup with
        | nil =>
          have : v0 ∈ template_vars.dedup := List.mem_dedup.mpr hv0
          rw [hemp] at this
          exact absurd this (List.not_mem_nil v0)
        | cons a l => simp
      simp only [hfilter, hne, Bool.not_false, if_true, sortStrings]
    · intro v
      rw [sortStrings, (List.perm_insertionSort _ _).mem_iff, List.mem_dedup]
  · intro h0
    subst h0
    unfold validate
    rw [hkeys]
    simp [sortStrings]

/-- C10 witness: a list document with one template variable, and with
none. -/
theorem c10_witness :
    (∃ L, validate ["x"] (DataValue.listD []) =
        Except.error ("Missing variables in data file: " ++ strJoinSep ", " L) ∧
      (∀ v, v ∈ L ↔ v ∈ ["x"])) ∧
    validate [] (DataValue.listD []) = Except.ok [] :=
  ⟨(c10_claim ["x"] (DataValue.listD []) rfl).2.1 "x" (by decide),
    (c10_claim [] (DataValue.listD []) rfl).2.2 rfl⟩

/-- C9: with no explicit output path, `generate_model_file` targets the
template path with its extension replaced by `.yaml` (`.json` for JSON
format); it fails with an "already exists" message when the target exists
and the overwrite flag is unset, and with the flag set it succeeds,
overwriting the target. -/
theorem c9_claim (parse : String → Except String (List Node))
    (fs : List (String × String)) (template_file fmt src : String) (body : List Node) :
    ((dictGet fs (withSuffix template_file
        (if fmt == "json" then ".json" else ".yaml"))).isSome = true →
      generate_model_file parse fs template_file none false fmt =
        Except.error ("Output file already exists: " ++
          withSuffix template_file (if fmt == "json" then ".json" else ".yaml") ++
          ". Use --force to overwrite.") ∧
      (∃ s1 s2, ("Output file already exists: " ++
          withSuffix template_file (if fmt == "json" then ".json" else ".yaml") ++
          ". Use --force to overwrite.") = s1 ++ "already exists" ++ s2)) ∧
    (dictGet fs template_file = some src → parse src = Except.ok body →
      ∃ content,
        generate_model_file parse fs template_file none true fmt =
          Except.ok (dictSet fs (withSuffix template_file
              (if fmt == "json" then ".json" else ".yaml")) content,
            withSuffix template_file (if fmt == "json" then ".json" else ".yaml")) ∧
        dictGet (dictSet fs (withSuffix template_file
            (if fmt == "json" then ".json" else ".yaml")) content)
          (withSuffix template_file (if fmt == "json" then ".json" else ".yaml")) =
            some content) := by
  constructor
  · intro h
    constructor
    · unfold generate_model_file
      simp only [h, Bool.not_false, Bool.and_true, if_true]
    · refine ⟨"Output file ", ": " ++ withSuffix template_file
        (if fmt == "json" then ".json" else ".yaml") ++ ". Use --force to overwrite.", ?_⟩
      have h1 : ("Output file " ++ "already exists" ++ ": " : String) =
          "Output file already exists: " := rfl
      rw [← h1]
      simp only [String.append_assoc]
  · intro hsrc hparse
    obtain ⟨c, hc⟩ := generate_model_ok body fmt
    refine ⟨c, ?_, dictGet_dictSet _ _ _⟩
    unfold generate_model_file
    rw [hsrc]
    simp only [Bool.not_true, Bool.and_false, Bool.false_eq_true, if_false]
    rw [hparse, hc]

/-- C9 witness: both branches at concrete inputs; the default target of
`dir/test.jinja2` in YAML mode is `dir/test.yaml`. -/
theorem c9_witness :
    withSuffix "dir/test.jinja2" (if "yaml" == "json" then ".json" else ".yaml") =
      "dir/test.yaml" ∧
    (generate_model_file (fun _ => Except.ok [Node.output [Node.name "n"]])
        [("dir/test.jinja2", "src"), ("dir/test.yaml", "old")]
        "dir/test.jinja2" none false "yaml" =
      Except.error ("Output file already exists: " ++
        withSuffix "dir/test.jinja2" (if "yaml" == "json" then ".json" else ".yaml") ++
        ". Use --force to overwrite.")) ∧
    (∃ content,
      generate_model_file (fun _ => Except.ok [Node.output [Node.name "n"]])
          [("dir/test.jinja2", "src"), ("dir/test.yaml", "old")]
          "dir/test.jinja2" none true "yaml" =
        Except.ok (dictSet [("dir/test.jinja2", "src"), ("dir/test.yaml", "old")]
            (withSuffix "dir/test.jinja2" (if "yaml" == "json" then ".json" else ".yaml"))
            content,
          withSuffix "dir/test.jinja2" (if "yaml" == "json" then ".json" else ".yaml")) ∧
      dictGet (dictSet [("dir/test.jinja2", "src"), ("dir/test.yaml", "old")]
          (withSuffix "dir/test.jinja2" (if "yaml" == "json" then ".json" else ".yaml"))
          content)
        (withSuffix "dir/test.jinja2" (if "yaml" == "json" then ".json" else ".yaml")) =
          some content) := by
  refine ⟨by decide, ?_, ?_⟩
  · exact ((c9_claim (fun _ => Except.ok [Node.output [Node.name "n"]])
      [("dir/test.jinja2", "src"), ("dir/test.yaml", "old")]
      "dir/test.jinja2" "yaml" "src" [Node.output [Node.name "n"]]).1 (by decide)).1
  · exact (c9_claim (fun _ => Except.ok [Node.output [Node.name "n"]])
      [("dir/test.jinja2", "src"), ("dir/test.yaml", "old")]
      "dir/test.jinja2" "yaml" "src" [Node.output [Node.name "n"]]).2 (by decide) rfl
